import Mathlib

/-!
Verification development for the Appinventario repository.

The authoritative mutation engine of the application is the React reducer in
`src/context/InventoryContext.tsx`.  This file gives a shallow embedding of
that reducer: the state tree (`AppState`), the action union (`Action`), the
reducer itself (`reducer`), and the initial state built from
`src/services/mockData.ts`.  JavaScript numbers that hold stock quantities and
quantity changes are embedded as `Int` (quantities are integral everywhere in
the source); identifiers, names and free-text fields are `String`.
`generateUUID()` (backed by `Math.random`) and `new Date().toISOString()` are
nondeterministic at run time, so the embedding threads an explicit environment
(`Env`) supplying the successive fresh identifiers and the current timestamp;
no claim depends on their values.
-/

namespace Appinventario

/-- Structure `Warehouse` from `src/types.ts`. -/
structure Warehouse where
  id : String
  name : String
  location : String
deriving DecidableEq, Repr

/-- Structure `Product` from `src/types.ts`.  `price` is a JS number holding decimal
currency values; it is embedded as `Rat`. -/
structure Product where
  id : String
  name : String
  sku : String
  category : String
  price : Rat
  lowStockThreshold : Int
  description : String
  images : List String
deriving DecidableEq, Repr

/-- Structure `InventoryItem` from `src/types.ts`: one ledger entry, keyed by
`(productId, warehouseId)`. -/
structure InventoryItem where
  productId : String
  warehouseId : String
  quantity : Int
deriving DecidableEq, Repr

/-- Type `LogType` from `src/types.ts`: `'ENTRADA' | 'SALIDA' | 'AJUSTE' | 'CREACIÓN'`. -/
inductive LogType where
  | ENTRADA
  | SALIDA
  | AJUSTE
  | CREACION
deriving DecidableEq, Repr

/-- Structure `LogEntry` from `src/types.ts`.  The optional `transactionId?` field is
embedded as `Option String`; a JS object literal that omits the field
corresponds to `none`. -/
structure LogEntry where
  id : String
  timestamp : String
  productName : String
  sku : String
  warehouseName : String
  type : LogType
  quantityChange : Int
  newQuantityInWarehouse : Int
  details : String
  user : String
  transactionId : Option String
deriving DecidableEq, Repr

/-- Type `UserRole` from `src/types.ts`. -/
inductive UserRole where
  | ADMINISTRADOR
  | GERENTE
  | EMPLEADO
deriving DecidableEq, Repr

/-- Structure `User` from `src/types.ts` (`password?` is optional). -/
structure User where
  id : String
  name : String
  email : String
  role : UserRole
  password : Option String
deriving DecidableEq, Repr

/-- Structure `UserWarehouseAccess` from `src/types.ts`. -/
structure UserWarehouseAccess where
  userId : String
  warehouseId : String
deriving DecidableEq, Repr

/-- State tree `AppState` from `src/context/InventoryContext.tsx`. -/
structure AppState where
  products : List Product
  warehouses : List Warehouse
  inventory : List InventoryItem
  logs : List LogEntry
  users : List User
  userWarehouseAccess : List UserWarehouseAccess
  currentUser : User
deriving DecidableEq, Repr

/-- Payload type `Omit<Product, 'id'>` (payload of `ADD_PRODUCT` / `BULK_ADD_PRODUCTS`). -/
structure ProductData where
  name : String
  sku : String
  category : String
  price : Rat
  lowStockThreshold : Int
  description : String
  images : List String
deriving DecidableEq, Repr

/-- Payload type `Omit<Warehouse, 'id'>` (payload of `ADD_WAREHOUSE`). -/
structure WarehouseData where
  name : String
  location : String
deriving DecidableEq, Repr

/-- Payload type `Omit<User, 'id'>` (payload of `ADD_USER`). -/
structure UserData where
  name : String
  email : String
  role : UserRole
  password : Option String
deriving DecidableEq, Repr

/-- The `Action` union from `src/context/InventoryContext.tsx`, extended with
the two action shapes that components under `src/components` dispatch at run
time (`BULK_TRANSFER_STOCK` from `BulkTransferModal.tsx` and
`UPDATE_PURCHASE_ORDER` from `PurchaseOrdersView.tsx`).  The reducer's
`switch` has no case for either, so at run time they fall through to
`default: return state`; the embedding mirrors that exactly. -/
inductive Action where
  | addProduct (product : ProductData)
  | bulkAddProducts (products : List ProductData)
  | updateProduct (product : Product)
  | deleteProduct (productId : String)
  | adjustStock (productId warehouseId : String) (quantityChange : Int)
      (type : LogType) (details : String)
  | transferStock (productId fromWarehouseId toWarehouseId : String)
      (quantity : Int) (details : String)
  | addWarehouse (warehouse : WarehouseData)
  | addUser (user : UserData) (warehouseIds : List String)
  | updateUser (user : User) (warehouseIds : List String)
  | deleteUser (userId : String)
  | bulkTransferStock (items : List (String × Int))
      (fromWarehouseId toWarehouseId : String) (details : String)
  | updatePurchaseOrder (purchaseOrderId : String) (status : String)

/-- Run-time environment of one dispatch: `newId k` is the value returned by
the `(k+1)`-th call to `generateUUID()` inside the reducer case, and `now` is
`new Date().toISOString()`. -/
structure Env where
  newId : Nat → String
  now : String

/-- Key predicate used by every ledger lookup in the reducer:
`i => i.productId === productId && i.warehouseId === warehouseId`. -/
def invKey (productId warehouseId : String) (i : InventoryItem) : Bool :=
  i.productId == productId && i.warehouseId == warehouseId

/-- JS `Array.prototype.findIndex` followed by reading the found element
(the reducer always indexes the array right after a successful `findIndex`).
Returns `none` where JS returns `-1`. -/
def findIdxItem (p : α → Bool) : List α → Option (Nat × α)
  | [] => none
  | x :: xs => if p x then some (0, x) else (findIdxItem p xs).map (fun r => (r.1 + 1, r.2))

/-- The `forEach` loop of the `BULK_ADD_PRODUCTS` case: builds the list of new
products and the list of CREACIÓN log entries, consuming two fresh UUIDs per
product (one for the product, one for its log entry). -/
def bulkAddAux (env : Env) (userName : String) (k : Nat) :
    List ProductData → List Product × List LogEntry
  | [] => ([], [])
  | pd :: rest =>
      let newProduct : Product :=
        ⟨env.newId k, pd.name, pd.sku, pd.category, pd.price, pd.lowStockThreshold,
          pd.description, pd.images⟩
      let newLog : LogEntry :=
        ⟨env.newId (k + 1), env.now, newProduct.name, newProduct.sku, "N/A",
          LogType.CREACION, 0, 0, "Producto añadido por carga masiva.", userName, none⟩
      let r := bulkAddAux env userName (k + 2) rest
      (newProduct :: r.1, newLog :: r.2)

/-- The reducer of `src/context/InventoryContext.tsx`, case for case.  Every
`return state` branch of the source (missing product/warehouse, non-positive
transfer quantity, insufficient stock, deleting the current user, and the
`default` case) returns `state` unchanged here. -/
def reducer (env : Env) (state : AppState) (action : Action) : AppState :=
  match action with
  | .addWarehouse w =>
      let newWarehouse : Warehouse := ⟨env.newId 0, w.name, w.location⟩
      { state with warehouses := state.warehouses ++ [newWarehouse] }
  | .addProduct pd =>
      let newProduct : Product :=
        ⟨env.newId 0, pd.name, pd.sku, pd.category, pd.price, pd.lowStockThreshold,
          pd.description, pd.images⟩
      let newLog : LogEntry :=
        ⟨env.newId 1, env.now, newProduct.name, newProduct.sku, "N/A",
          LogType.CREACION, 0, 0, "Producto nuevo añadido al sistema.",
          state.currentUser.name, none⟩
      { state with
          products := state.products ++ [newProduct],
          logs := newLog :: state.logs }
  | .bulkAddProducts pds =>
      let r := bulkAddAux env state.currentUser.name 0 pds
      { state with
          products := state.products ++ r.1,
          logs := r.2 ++ state.logs }
  | .updateProduct up =>
      { state with products := state.products.map (fun p => if p.id == up.id then up else p) }
  | .deleteProduct pid =>
      { state with
          products := state.products.filter (fun p => p.id != pid),
          inventory := state.inventory.filter (fun i => i.productId != pid) }
  | .adjustStock pid wid change ty details =>
      match state.products.find? (fun p => p.id == pid),
            state.warehouses.find? (fun w => w.id == wid) with
      | some product, some warehouse =>
          let r : Int × List InventoryItem :=
            match findIdxItem (invKey pid wid) state.inventory with
            | some (idx, currentItem) =>
                let newQ := max 0 (currentItem.quantity + change)
                (newQ, state.inventory.set idx { currentItem with quantity := newQ })
            | none =>
                let newQ := max 0 change
                -- "Only add if it's a positive adjustment"
                (newQ, if 0 < newQ then state.inventory ++ [⟨pid, wid, newQ⟩]
                       else state.inventory)
          let newLog : LogEntry :=
            ⟨env.newId 0, env.now, product.name, product.sku, warehouse.name, ty,
              change, r.1, details, state.currentUser.name, none⟩
          { state with inventory := r.2, logs := newLog :: state.logs }
      | _, _ => state
  | .transferStock pid fromId toId quantity details =>
      match state.products.find? (fun p => p.id == pid),
            state.warehouses.find? (fun w => w.id == fromId),
            state.warehouses.find? (fun w => w.id == toId) with
      | some product, some fromWarehouse, some toWarehouse =>
          if quantity ≤ 0 then state
          else
            match findIdxItem (invKey pid fromId) state.inventory with
            | none => state -- "No hay suficiente stock"
            | some (fromIdx, fromItem) =>
                if fromItem.quantity < quantity then state -- "No hay suficiente stock"
                else
                  let finalFromQuantity := fromItem.quantity - quantity
                  let inv1 :=
                    state.inventory.set fromIdx { fromItem with quantity := finalFromQuantity }
                  let log1 : LogEntry :=
                    ⟨env.newId 0, env.now, product.name, product.sku, fromWarehouse.name,
                      LogType.SALIDA, -quantity, finalFromQuantity,
                      "Transferencia a " ++ toWarehouse.name ++ ". " ++ details,
                      state.currentUser.name, none⟩
                  let r : Int × List InventoryItem :=
                    match findIdxItem (invKey pid toId) inv1 with
                    | some (toIdx, toItem) =>
                        (toItem.quantity + quantity,
                         inv1.set toIdx { toItem with quantity := toItem.quantity + quantity })
                    | none => (quantity, inv1 ++ [⟨pid, toId, quantity⟩])
                  let log2 : LogEntry :=
                    ⟨env.newId 1, env.now, product.name, product.sku, toWarehouse.name,
                      LogType.ENTRADA, quantity, r.1,
                      "Transferencia desde " ++ fromWarehouse.name ++ ". " ++ details,
                      state.currentUser.name, none⟩
                  { state with inventory := r.2, logs := log1 :: log2 :: state.logs }
      | _, _, _ => state
  | .addUser ud warehouseIds =>
      let newUser : User := ⟨env.newId 0, ud.name, ud.email, ud.role, ud.password⟩
      let newAccessEntries : List UserWarehouseAccess :=
        warehouseIds.map (fun wid => ⟨newUser.id, wid⟩)
      { state with
          users := state.users ++ [newUser],
          userWarehouseAccess := state.userWarehouseAccess ++ newAccessEntries }
  | .updateUser uu warehouseIds =>
      let users := state.users.map (fun u => if u.id == uu.id then uu else u)
      let kept := state.userWarehouseAccess.filter (fun a => a.userId != uu.id)
      let newAccessEntries : List UserWarehouseAccess :=
        warehouseIds.map (fun wid => ⟨uu.id, wid⟩)
      { state with
          users := users,
          userWarehouseAccess := kept ++ newAccessEntries }
  | .deleteUser userId =>
      -- "Prevenir la eliminación del usuario actual"
      if userId == state.currentUser.id then state
      else
        { state with
            users := state.users.filter (fun u => u.id != userId),
            userWarehouseAccess :=
              state.userWarehouseAccess.filter (fun a => a.userId != userId) }
  | .bulkTransferStock _ _ _ _ => state -- no reducer case: `default: return state`
  | .updatePurchaseOrder _ _ => state -- no reducer case: `default: return state`

/-! Initial state, from `src/services/mockData.ts`.  The mock log timestamps
are computed at module load time from `Date.now()`; they are embedded as
opaque placeholder strings (no claim depends on timestamps). -/

/-- Data `mockWarehouses` from `src/services/mockData.ts`. -/
def mockWarehouses : List Warehouse :=
  [⟨"w1", "Almacén Principal", "150141 - AV LOS GERANIOS 321"⟩,
   ⟨"w2", "Bodega Norte", "Ciudad Capital, Sector Norte"⟩,
   ⟨"w3", "Punto de Venta Central",
     "150140 - AV. CAMINOS DEL INCA NRO. 3140 DPTO. 401 URB. PROLONGACION BENAVIDES - LIMA LIMA SANTIAGO DE SURCO"⟩]

/-- Data `mockProducts` from `src/services/mockData.ts`. -/
def mockProducts : List Product :=
  [⟨"p1", "Taladro Inalámbrico 20V", "TLD-20V-001", "Herramientas Elétricas", 129.99, 10,
     "Potente taladro inalámbrico de 20V con batería de litio de larga duración. Ideal para trabajos de perforación en madera, metal y plástico.",
     ["https://via.placeholder.com/600x400.png/2d3748/ffffff?text=Taladro"]⟩,
   ⟨"p2", "Juego de 100 Brocas", "BRC-100-002", "Accesorios", 49.99, 15,
     "Set completo de 100 brocas de titanio de alta velocidad para múltiples materiales. Incluye estuche organizador.",
     ["https://via.placeholder.com/600x400.png/2d3748/ffffff?text=Brocas"]⟩,
   ⟨"p3", "Martillo de Carpintero", "MTC-CF-003", "Herramientas Manuales", 24.50, 20,
     "Martillo de carpintero con cabeza de acero forjado y mango de fibra de vidrio para una absorción óptima de impactos.",
     ["https://via.placeholder.com/600x400.png/2d3748/ffffff?text=Martillo"]⟩,
   ⟨"p4", "Caja de Herramientas Metálica", "CJA-MTL-004", "Almacenamiento", 75.00, 5,
     "Caja de herramientas metálica de 5 compartimentos, resistente y con amplio espacio para organizar todas tus herramientas.",
     ["https://via.placeholder.com/600x400.png/2d3748/ffffff?text=Caja"]⟩,
   ⟨"p5", "Guantes de Seguridad (Par)", "GNT-SEG-005", "Seguridad", 9.99, 50,
     "Par de guantes de seguridad recubiertos de nitrilo para un mejor agarre y protección contra cortes y abrasiones.",
     ["https://via.placeholder.com/600x400.png/2d3748/ffffff?text=Guantes"]⟩,
   ⟨"p6", "COCA COLA 500ML X12", "CF_600/04", "Bebidas", 15.00, 20,
     "Paquete de 12 botellas de Coca Cola de 500ml.", []⟩]

/-- Data `mockInventory` from `src/services/mockData.ts`. -/
def mockInventory : List InventoryItem :=
  [⟨"p1", "w1", 25⟩, ⟨"p1", "w2", 12⟩, ⟨"p2", "w1", 8⟩, ⟨"p3", "w1", 80⟩,
   ⟨"p3", "w2", 32⟩, ⟨"p3", "w3", 15⟩, ⟨"p4", "w2", 0⟩, ⟨"p5", "w1", 150⟩,
   ⟨"p5", "w2", 100⟩, ⟨"p6", "w1", 50⟩]

/-- Data `mockLogs` from `src/services/mockData.ts` (timestamps opaque; none of the
mock entries sets `transactionId`). -/
def mockLogs : List LogEntry :=
  [⟨"l4", "mock-ts-l4", "Taladro Inalámbrico 20V", "TLD-20V-001", "Almacén Principal",
     LogType.SALIDA, -5, 25, "Venta a cliente #C-2024-01", "Empleado Mostrador", none⟩,
   ⟨"l1", "mock-ts-l1", "Taladro Inalámbrico 20V", "TLD-20V-001", "Almacén Principal",
     LogType.ENTRADA, 30, 30, "Recepción de pedido de proveedor #PO-1024", "Sistema", none⟩,
   ⟨"l2", "mock-ts-l2", "Taladro Inalámbrico 20V", "TLD-20V-001", "Bodega Norte",
     LogType.ENTRADA, 12, 12, "Transferencia desde Almacén Principal", "Sistema", none⟩,
   ⟨"l3", "mock-ts-l3", "Guantes de Seguridad (Par)", "GNT-SEG-005", "N/A",
     LogType.CREACION, 0, 0, "Producto nuevo añadido al sistema", "Sistema", none⟩]

/-- Data `mockUsers[0]` from `src/services/mockData.ts`. -/
def mockUser1 : User :=
  ⟨"u1", "Admin General", "admin@dominio.com", UserRole.ADMINISTRADOR, some "adminpassword"⟩

/-- Data `mockUsers` from `src/services/mockData.ts`. -/
def mockUsers : List User :=
  [mockUser1,
   ⟨"u2", "Gerente Bodega", "gerente@dominio.com", UserRole.GERENTE, some "gerentepassword"⟩,
   ⟨"u3", "Empleado Mostrador", "empleado@dominio.com", UserRole.EMPLEADO, some "empleadopassword"⟩,
   ⟨"u4", "JAYCO SOCIEDAD ANONIMA CERRADA", "cliente@jayco.com", UserRole.EMPLEADO, some "clientepassword"⟩]

/-- Data `mockUserWarehouseAccess` from `src/services/mockData.ts`. -/
def mockUserWarehouseAccess : List UserWarehouseAccess :=
  [⟨"u2", "w1"⟩, ⟨"u2", "w2"⟩, ⟨"u3", "w3"⟩]

/-- State `initialState` from `src/context/InventoryContext.tsx`
(`currentUser: mockUsers[0]`). -/
def initialState : AppState :=
  ⟨mockProducts, mockWarehouses, mockInventory, mockLogs, mockUsers,
    mockUserWarehouseAccess, mockUser1⟩

/-- Reachable states: the initial state, closed under dispatching any action
in any run-time environment. -/
inductive Reachable : AppState → Prop
  | init : Reachable initialState
  | step (env : Env) (a : Action) {s : AppState} :
      Reachable s → Reachable (reducer env s a)

/-! Query helpers used to state the claims.  They read the state the same way
the source does (first match of the `(productId, warehouseId)` key). -/

/-- Current ledger quantity of a product in a warehouse (0 when no ledger
entry exists), read off the first matching entry exactly as the source's
`find`/`findIndex` lookups do. -/
def qty (inv : List InventoryItem) (productId warehouseId : String) : Int :=
  match inv.find? (invKey productId warehouseId) with
  | some i => i.quantity
  | none => 0

/-- Whether a product with this id exists in the state. -/
def hasProduct (s : AppState) (productId : String) : Bool :=
  (s.products.find? (fun p => p.id == productId)).isSome

/-- Whether a warehouse with this id exists in the state. -/
def hasWarehouse (s : AppState) (warehouseId : String) : Bool :=
  (s.warehouses.find? (fun w => w.id == warehouseId)).isSome

/-- Name of the warehouse with this id (empty when absent). -/
def warehouseNameOf (s : AppState) (warehouseId : String) : String :=
  match s.warehouses.find? (fun w => w.id == warehouseId) with
  | some w => w.name
  | none => ""

/-- The source ledger entry exists and holds at least `q` units. -/
def sourceHasAtLeast (inv : List InventoryItem) (productId warehouseId : String)
    (q : Int) : Bool :=
  match inv.find? (invKey productId warehouseId) with
  | some i => q ≤ i.quantity
  | none => false

/-- The source ledger entry is absent or holds less than `q` units. -/
def sourceInsufficient (inv : List InventoryItem) (productId warehouseId : String)
    (q : Int) : Bool :=
  match inv.find? (invKey productId warehouseId) with
  | some i => i.quantity < q
  | none => true

/-- A fixed environment used for concrete instances. -/
def wEnv : Env := ⟨fun k => "uuid-" ++ toString k, "now"⟩

/-- Default log entry used only to read concrete log lists in closed
statements. -/
def dLog : LogEntry :=
  ⟨"", "", "", "", "", LogType.AJUSTE, 0, 0, "", "", none⟩

/-! Lemmas about `findIdxItem` and `List.set`, the combination through which
the reducer performs all in-place ledger updates. -/

theorem findIdxItem_mem_and_pos {p : α → Bool} :
    ∀ {l : List α} {i : Nat} {x : α}, findIdxItem p l = some (i, x) → x ∈ l ∧ p x = true := by
  intro l
  induction l with
  | nil => intro i x h; simp [findIdxItem] at h
  | cons y ys ih =>
      intro i x h
      by_cases hy : p y = true
      · simp [findIdxItem, hy] at h
        obtain ⟨-, rfl⟩ := h
        exact ⟨List.mem_cons_self y ys, hy⟩
      · simp only [findIdxItem, hy, if_neg, Bool.false_eq_true, if_false,
          Option.map_eq_some'] at h
        obtain ⟨⟨j, z⟩, hj, hz⟩ := h
        obtain ⟨-, rfl⟩ := Prod.mk.injEq .. ▸ hz
        have := ih hj
        exact ⟨List.mem_cons_of_mem _ this.1, this.2⟩

theorem findIdxItem_find? {p : α → Bool} :
    ∀ {l : List α} {i : Nat} {x : α}, findIdxItem p l = some (i, x) → l.find? p = some x := by
  intro l
  induction l with
  | nil => intro i x h; simp [findIdxItem] at h
  | cons y ys ih =>
      intro i x h
      by_cases hy : p y = true
      · simp [findIdxItem, hy] at h
        rw [← h.2]
        exact List.find?_cons_of_pos _ hy
      · simp only [findIdxItem, hy, Bool.false_eq_true, if_false, Option.map_eq_some'] at h
        obtain ⟨⟨j, z⟩, hj, hz⟩ := h
        obtain ⟨-, rfl⟩ := Prod.mk.injEq .. ▸ hz
        rw [List.find?_cons_of_neg _ (by simp [hy])]
        exact ih hj

theorem findIdxItem_none_find? {p : α → Bool} :
    ∀ {l : List α}, findIdxItem p l = none → l.find? p = none := by
  intro l
  induction l with
  | nil => intro _; rfl
  | cons y ys ih =>
      intro h
      by_cases hy : p y = true
      · simp [findIdxItem, hy] at h
      · simp only [findIdxItem, hy, Bool.false_eq_true, if_false, Option.map_eq_none'] at h
        rw [List.find?_cons_of_neg _ (by simp [hy])]
        exact ih h

theorem find?_findIdxItem {p : α → Bool} :
    ∀ {l : List α} {x : α}, l.find? p = some x → ∃ i, findIdxItem p l = some (i, x) := by
  intro l
  induction l with
  | nil => intro x h; simp at h
  | cons y ys ih =>
      intro x h
      by_cases hy : p y = true
      · rw [List.find?_cons_of_pos _ hy] at h
        obtain rfl := Option.some.injEq .. ▸ h
        exact ⟨0, by simp [findIdxItem, hy]⟩
      · rw [List.find?_cons_of_neg _ (by simp [hy])] at h
        obtain ⟨j, hj⟩ := ih h
        exact ⟨j + 1, by simp [findIdxItem, hy, hj]⟩

theorem set_find?_pos {p : α → Bool} :
    ∀ {l : List α} {i : Nat} {x v : α}, findIdxItem p l = some (i, x) → p v = true →
      (l.set i v).find? p = some v := by
  intro l
  induction l with
  | nil => intro i x v h _; simp [findIdxItem] at h
  | cons y ys ih =>
      intro i x v h hv
      by_cases hy : p y = true
      · simp [findIdxItem, hy] at h
        rw [← h.1, List.set_cons_zero, List.find?_cons_of_pos _ hv]
      · simp only [findIdxItem, hy, Bool.false_eq_true, if_false, Option.map_eq_some'] at h
        obtain ⟨⟨j, z⟩, hj, hz⟩ := h
        have h1 : j + 1 = i := (Prod.mk.injEq .. ▸ hz).1
        rw [← h1, List.set_cons_succ, List.find?_cons_of_neg _ (by simp [hy])]
        exact ih hj hv

theorem set_findIdxItem_pos {p : α → Bool} :
    ∀ {l : List α} {i : Nat} {x v : α}, findIdxItem p l = some (i, x) → p v = true →
      findIdxItem p (l.set i v) = some (i, v) := by
  intro l
  induction l with
  | nil => intro i x v h _; simp [findIdxItem] at h
  | cons y ys ih =>
      intro i x v h hv
      by_cases hy : p y = true
      · simp [findIdxItem, hy] at h
        rw [← h.1, List.set_cons_zero]
        simp [findIdxItem, hv]
      · simp only [findIdxItem, hy, Bool.false_eq_true, if_false, Option.map_eq_some'] at h
        obtain ⟨⟨j, z⟩, hj, hz⟩ := h
        have h1 : j + 1 = i := (Prod.mk.injEq .. ▸ hz).1
        rw [← h1, List.set_cons_succ]
        simp [findIdxItem, hy, ih hj hv]

theorem set_find?_other {p q : α → Bool} :
    ∀ {l : List α} {i : Nat} {x v : α}, findIdxItem p l = some (i, x) →
      q x = false → q v = false → (l.set i v).find? q = l.find? q := by
  intro l
  induction l with
  | nil => intro i x v h _ _; simp [findIdxItem] at h
  | cons y ys ih =>
      intro i x v h hx hv
      by_cases hy : p y = true
      · simp [findIdxItem, hy] at h
        obtain ⟨h1, rfl⟩ := h
        rw [← h1, List.set_cons_zero,
          List.find?_cons_of_neg _ (by simp [hv]),
          List.find?_cons_of_neg _ (by simp [hx])]
      · simp only [findIdxItem, hy, Bool.false_eq_true, if_false, Option.map_eq_some'] at h
        obtain ⟨⟨j, z⟩, hj, hz⟩ := h
        obtain ⟨h1, rfl⟩ := Prod.mk.injEq .. ▸ hz
        rw [← h1, List.set_cons_succ]
        by_cases hqy : q y = true
        · rw [List.find?_cons_of_pos _ hqy, List.find?_cons_of_pos _ hqy]
        · rw [List.find?_cons_of_neg _ (by simp [hqy]),
            List.find?_cons_of_neg _ (by simp [hqy])]
          exact ih hj hx hv

theorem set_self_of_findIdxItem {p : α → Bool} :
    ∀ {l : List α} {i : Nat} {x : α}, findIdxItem p l = some (i, x) → l.set i x = l := by
  intro l
  induction l with
  | nil => intro i x h; simp [findIdxItem] at h
  | cons y ys ih =>
      intro i x h
      by_cases hy : p y = true
      · simp [findIdxItem, hy] at h
        rw [← h.1, ← h.2, List.set_cons_zero]
      · simp only [findIdxItem, hy, Bool.false_eq_true, if_false, Option.map_eq_some'] at h
        obtain ⟨⟨j, z⟩, hj, hz⟩ := h
        obtain ⟨h1, rfl⟩ := Prod.mk.injEq .. ▸ hz
        rw [← h1, List.set_cons_succ, ih hj]

example : qty mockInventory "p1" "w1" = 25 := by decide
example : sourceHasAtLeast mockInventory "p2" "w1" 8 = true := by decide
example : sourceInsufficient mockInventory "p2" "w1" 9 = true := by decide
example :
    qty (reducer wEnv initialState (Action.transferStock "p1" "w1" "w2" 5 "d")).inventory
      "p1" "w2" = 17 := by decide

theorem invKey_true_iff {pid wid : String} {i : InventoryItem} :
    invKey pid wid i = true ↔ i.productId = pid ∧ i.warehouseId = wid := by
  simp [invKey]

theorem qty_eq_of_find? {inv : List InventoryItem} {pid wid : String} {x : InventoryItem}
    (h : inv.find? (invKey pid wid) = some x) : qty inv pid wid = x.quantity := by
  unfold qty
  rw [h]

theorem qty_eq_zero_of_find? {inv : List InventoryItem} {pid wid : String}
    (h : inv.find? (invKey pid wid) = none) : qty inv pid wid = 0 := by
  unfold qty
  rw [h]

/-- Claim C4: dispatching `BULK_TRANSFER_STOCK` (the action
`BulkTransferModal.tsx` sends, expecting an all-or-nothing multi-item
transfer with 2×N grouped log entries) hits no case of the reducer's
`switch`: the `default` case returns the state unchanged, so no ledger entry
is debited or credited and no log entry is appended. -/
theorem bulkTransferStock_is_ignored (env : Env) (s : AppState)
    (items : List (String × Int)) (fromId toId details : String) :
    reducer env s (Action.bulkTransferStock items fromId toId details) = s := rfl

/-- Claim C5: dispatching `UPDATE_PURCHASE_ORDER` (the action
`PurchaseOrdersView.tsx` sends from `handleReceiveOrder` with status
`'RECIBIDA'`, expecting ENTRY movements per line and a status transition)
hits no case of the reducer's `switch`: the `default` case returns the state
unchanged — no movement is posted, no log appended, and `AppState` holds no
purchase-order collection at all. -/
theorem updatePurchaseOrder_is_ignored (env : Env) (s : AppState)
    (poId status : String) :
    reducer env s (Action.updatePurchaseOrder poId status) = s := rfl

/-- Claim C3: a `TRANSFER_STOCK` dispatch whose source ledger entry is absent
or holds less than the requested quantity leaves the whole state unchanged:
no ledger quantity is modified and no log entry is appended.  (The reducer
signals the rejection only by returning the previous state; it has no error
channel, so `InsufficientStockError` is interpreted as this rejection
branch.) -/
theorem insufficient_transfer_unchanged (env : Env) (s : AppState)
    (pid fromId toId : String) (quantity : Int) (details : String)
    (hins : sourceInsufficient s.inventory pid fromId quantity = true) :
    reducer env s (Action.transferStock pid fromId toId quantity details) = s := by
  simp only [reducer]
  split
  · split
    · rfl
    · split
      · rfl
      · rename_i fromIdx fromItem hfi
        have hfind := findIdxItem_find? hfi
        unfold sourceInsufficient at hins
        rw [hfind] at hins
        simp only [decide_eq_true_eq] at hins
        rw [if_pos hins]
  · rfl

/-- Witness for C3 at the concrete scenario of the spec (product `p2` holds
8 units at `w1`; a transfer of 10 is requested). -/
theorem insufficient_transfer_unchanged_witness :
    reducer wEnv initialState (Action.transferStock "p2" "w1" "w2" 10 "d") = initialState :=
  insufficient_transfer_unchanged wEnv initialState "p2" "w1" "w2" 10 "d" (by decide)

/-- One reducer step preserves nonnegativity of every ledger quantity:
`ADJUST_STOCK` clamps with `Math.max(0, ...)`, `TRANSFER_STOCK` only debits
after its sufficiency guard and only credits positive amounts, and no other
case decreases a quantity. -/
theorem inventory_nonneg_step (env : Env) (a : Action) (s : AppState)
    (h : ∀ i ∈ s.inventory, 0 ≤ i.quantity) :
    ∀ i ∈ (reducer env s a).inventory, 0 ≤ i.quantity := by
  cases a with
  | addProduct pd => simpa [reducer] using h
  | bulkAddProducts pds => simpa [reducer] using h
  | updateProduct up => simpa [reducer] using h
  | addWarehouse w => simpa [reducer] using h
  | addUser ud wids => simpa [reducer] using h
  | updateUser uu wids => simpa [reducer] using h
  | bulkTransferStock items fromId toId details => simpa [reducer] using h
  | updatePurchaseOrder poId status => simpa [reducer] using h
  | deleteUser uid =>
      intro i hi
      simp only [reducer] at hi
      split at hi
      · exact h i hi
      · exact h i hi
  | deleteProduct pid =>
      intro i hi
      simp only [reducer, List.mem_filter] at hi
      exact h i hi.1
  | adjustStock pid wid change ty details =>
      intro i hi
      simp only [reducer] at hi
      split at hi
      · split at hi
        · rcases List.mem_or_eq_of_mem_set hi with h1 | h1
          · exact h i h1
          · rw [h1]
            exact le_max_left 0 _
        · split at hi
          · rcases List.mem_append.mp hi with h1 | h1
            · exact h i h1
            · simp only [List.mem_singleton] at h1
              rw [h1]
              exact le_max_left 0 _
          · exact h i hi
      · exact h i hi
  | transferStock pid fromId toId quantity details =>
      intro i hi
      simp only [reducer] at hi
      split at hi
      · split at hi
        · exact h i hi
        · rename_i hqpos
          split at hi
          · exact h i hi
          · rename_i fromIdx fromItem hfi
            split at hi
            · exact h i hi
            · rename_i hsuff
              have hq : 0 < quantity := lt_of_not_le hqpos
              have hfrom : (0 : Int) ≤ fromItem.quantity - quantity :=
                sub_nonneg.mpr (le_of_not_lt hsuff)
              have hinv1 : ∀ j ∈ s.inventory.set fromIdx
                  { fromItem with quantity := fromItem.quantity - quantity },
                  0 ≤ j.quantity := by
                intro j hj
                rcases List.mem_or_eq_of_mem_set hj with h1 | h1
                · exact h j h1
                · rw [h1]; exact hfrom
              split at hi
              · rename_i toIdx toItem hti
                rcases List.mem_or_eq_of_mem_set hi with h1 | h1
                · exact hinv1 i h1
                · rw [h1]
                  exact add_nonneg (hinv1 toItem (findIdxItem_mem_and_pos hti).1) (le_of_lt hq)
              · rcases List.mem_append.mp hi with h1 | h1
                · exact hinv1 i h1
                · simp only [List.mem_singleton] at h1
                  rw [h1]
                  exact le_of_lt hq
      · exact h i hi

/-- Claim C1: in every reachable state (any sequence of dispatched actions
starting from the initial state), every inventory ledger entry has a
nonnegative quantity — no operation ever posts a negative quantity. -/
theorem reachable_inventory_nonneg (s : AppState) (h : Reachable s) :
    ∀ i ∈ s.inventory, 0 ≤ i.quantity := by
  induction h with
  | init => decide
  | step env a hr ih => exact inventory_nonneg_step env a _ ih

/-- Witness for C1: after an adjustment of −100 on an entry holding 8 units
(a clamped over-removal), the resulting entry is still nonnegative. -/
theorem reachable_inventory_nonneg_witness :
    (0 : Int) ≤ (InventoryItem.mk "p2" "w1" 0).quantity :=
  reachable_inventory_nonneg
    (reducer wEnv initialState (Action.adjustStock "p2" "w1" (-100) LogType.AJUSTE "d"))
    (Reachable.step wEnv _ Reachable.init) ⟨"p2", "w1", 0⟩ (by decide)

/-- One reducer step preserves "some user carries the current user's id":
`UPDATE_USER` preserves every id in the collection, `DELETE_USER` refuses the
current user's id and otherwise removes only other ids, and `currentUser`
itself is never reassigned by any case. -/
theorem currentUser_in_users_step (env : Env) (a : Action) (s : AppState)
    (h : ∃ u ∈ s.users, u.id = s.currentUser.id) :
    ∃ u ∈ (reducer env s a).users, u.id = (reducer env s a).currentUser.id := by
  obtain ⟨u, hu, hid⟩ := h
  cases a with
  | addProduct pd => exact ⟨u, hu, hid⟩
  | bulkAddProducts pds => exact ⟨u, hu, hid⟩
  | updateProduct up => exact ⟨u, hu, hid⟩
  | deleteProduct pid => exact ⟨u, hu, hid⟩
  | addWarehouse w => exact ⟨u, hu, hid⟩
  | bulkTransferStock items fromId toId details => exact ⟨u, hu, hid⟩
  | updatePurchaseOrder poId status => exact ⟨u, hu, hid⟩
  | adjustStock pid wid change ty details =>
      simp only [reducer]
      repeat' split
      all_goals exact ⟨u, hu, hid⟩
  | transferStock pid fromId toId quantity details =>
      simp only [reducer]
      repeat' split
      all_goals exact ⟨u, hu, hid⟩
  | addUser ud wids =>
      exact ⟨u, List.mem_append_left _ hu, hid⟩
  | updateUser uu wids =>
      simp only [reducer]
      refine ⟨if u.id == uu.id then uu else u, List.mem_map_of_mem _ hu, ?_⟩
      by_cases hc : (u.id == uu.id) = true
      · rw [if_pos hc, ← beq_iff_eq.mp hc]
        exact hid
      · rw [if_neg hc]
        exact hid
  | deleteUser uid =>
      simp only [reducer]
      split
      · exact ⟨u, hu, hid⟩
      · rename_i hne
        refine ⟨u, List.mem_filter.mpr ⟨hu, ?_⟩, hid⟩
        simp only [bne_iff_ne, ne_eq]
        intro hEq
        exact hne (beq_iff_eq.mpr (hEq.symm.trans hid))

/-- Claim C10: dispatching `DELETE_USER` with the id of the currently
logged-in user leaves the entire state unchanged, and consequently in every
reachable state the users collection still contains a user with the current
user's id. -/
theorem delete_current_user_noop (env : Env) (s : AppState) (h : Reachable s) :
    reducer env s (Action.deleteUser s.currentUser.id) = s ∧
      ∃ u ∈ s.users, u.id = s.currentUser.id := by
  constructor
  · simp [reducer]
  · induction h with
    | init => decide
    | step env' a' hr ih => exact currentUser_in_users_step env' a' _ ih

/-- Witness for C10 at the initial state. -/
theorem delete_current_user_noop_witness :
    reducer wEnv initialState (Action.deleteUser initialState.currentUser.id) = initialState ∧
      ∃ u ∈ initialState.users, u.id = initialState.currentUser.id :=
  delete_current_user_noop wEnv initialState Reachable.init

/-- Claim C2: a `TRANSFER_STOCK` dispatch in a state where the product and
both warehouses exist, the warehouses differ, the quantity is positive and
the source ledger entry holds at least the requested quantity: the source
warehouse quantity decreases by exactly that quantity, the destination
quantity increases by exactly that quantity, and exactly two log entries are
appended — first a SALIDA (EXIT) with `quantityChange = -quantity` at the
source, then an ENTRADA (ENTRY) with `quantityChange = +quantity` at the
destination, each recording the post-operation quantity of its warehouse. -/
theorem transfer_success (env : Env) (s : AppState)
    (pid fromId toId : String) (quantity : Int) (details : String)
    (hp : hasProduct s pid = true)
    (hf : hasWarehouse s fromId = true)
    (ht : hasWarehouse s toId = true)
    (hne : fromId ≠ toId)
    (hq : 0 < quantity)
    (hs : sourceHasAtLeast s.inventory pid fromId quantity = true) :
    qty (reducer env s (Action.transferStock pid fromId toId quantity details)).inventory
        pid fromId = qty s.inventory pid fromId - quantity ∧
    qty (reducer env s (Action.transferStock pid fromId toId quantity details)).inventory
        pid toId = qty s.inventory pid toId + quantity ∧
    ∃ l1 l2,
      (reducer env s (Action.transferStock pid fromId toId quantity details)).logs
        = l1 :: l2 :: s.logs ∧
      l1.type = LogType.SALIDA ∧
      l1.quantityChange = -quantity ∧
      l1.warehouseName = warehouseNameOf s fromId ∧
      l1.newQuantityInWarehouse
        = qty (reducer env s (Action.transferStock pid fromId toId quantity details)).inventory
            pid fromId ∧
      l2.type = LogType.ENTRADA ∧
      l2.quantityChange = quantity ∧
      l2.warehouseName = warehouseNameOf s toId ∧
      l2.newQuantityInWarehouse
        = qty (reducer env s (Action.transferStock pid fromId toId quantity details)).inventory
            pid toId := by
  unfold hasProduct at hp
  unfold hasWarehouse at hf ht
  obtain ⟨product, hpe⟩ := Option.isSome_iff_exists.mp hp
  obtain ⟨fromW, hfwe⟩ := Option.isSome_iff_exists.mp hf
  obtain ⟨toW, htwe⟩ := Option.isSome_iff_exists.mp ht
  unfold sourceHasAtLeast at hs
  cases hfe : s.inventory.find? (invKey pid fromId) with
  | none => rw [hfe] at hs; exact absurd hs (by simp)
  | some fromItem =>
  rw [hfe] at hs
  simp only [decide_eq_true_eq] at hs
  obtain ⟨fromIdx, hfi⟩ := find?_findIdxItem hfe
  obtain ⟨hfp, hfw⟩ := invKey_true_iff.mp (findIdxItem_mem_and_pos hfi).2
  have hnle : ¬ quantity ≤ 0 := not_le.mpr hq
  have hnlt : ¬ fromItem.quantity < quantity := not_lt.mpr hs
  have hkv1 : invKey pid fromId
      { fromItem with quantity := fromItem.quantity - quantity } = true :=
    invKey_true_iff.mpr ⟨hfp, hfw⟩
  have hkv1to : invKey pid toId
      { fromItem with quantity := fromItem.quantity - quantity } = false := by
    rw [Bool.eq_false_iff]
    intro hcontra
    exact hne (hfw.symm.trans (invKey_true_iff.mp hcontra).2)
  have hkfromto : invKey pid toId fromItem = false := by
    rw [Bool.eq_false_iff]
    intro hcontra
    exact hne (hfw.symm.trans (invKey_true_iff.mp hcontra).2)
  have hfind1from :
      (s.inventory.set fromIdx { fromItem with quantity := fromItem.quantity - quantity }).find?
        (invKey pid fromId)
        = some { fromItem with quantity := fromItem.quantity - quantity } :=
    set_find?_pos hfi hkv1
  have hfind1to :
      (s.inventory.set fromIdx { fromItem with quantity := fromItem.quantity - quantity }).find?
        (invKey pid toId) = s.inventory.find? (invKey pid toId) :=
    set_find?_other hfi hkfromto hkv1to
  have hwn1 : warehouseNameOf s fromId = fromW.name := by
    unfold warehouseNameOf
    rw [hfwe]
  have hwn2 : warehouseNameOf s toId = toW.name := by
    unfold warehouseNameOf
    rw [htwe]
  simp only [reducer, hpe, hfwe, htwe, hfi, if_neg hnle, if_neg hnlt]
  cases hti : findIdxItem (invKey pid toId)
      (s.inventory.set fromIdx { fromItem with quantity := fromItem.quantity - quantity }) with
  | some r2 =>
      obtain ⟨toIdx, toItem⟩ := r2
      obtain ⟨htp, htw⟩ := invKey_true_iff.mp (findIdxItem_mem_and_pos hti).2
      have hkv2 : invKey pid toId
          { toItem with quantity := toItem.quantity + quantity } = true :=
        invKey_true_iff.mpr ⟨htp, htw⟩
      have hkv2from : invKey pid fromId
          { toItem with quantity := toItem.quantity + quantity } = false := by
        rw [Bool.eq_false_iff]
        intro hcontra
        exact hne ((htw.symm.trans (invKey_true_iff.mp hcontra).2).symm)
      have hktofrom : invKey pid fromId toItem = false := by
        rw [Bool.eq_false_iff]
        intro hcontra
        exact hne ((htw.symm.trans (invKey_true_iff.mp hcontra).2).symm)
      have hfind2from :
          (((s.inventory.set fromIdx
              { fromItem with quantity := fromItem.quantity - quantity }).set toIdx
              { toItem with quantity := toItem.quantity + quantity })).find?
            (invKey pid fromId)
            = some { fromItem with quantity := fromItem.quantity - quantity } := by
        rw [set_find?_other hti hktofrom hkv2from]
        exact hfind1from
      have hfind2to :
          (((s.inventory.set fromIdx
              { fromItem with quantity := fromItem.quantity - quantity }).set toIdx
              { toItem with quantity := toItem.quantity + quantity })).find?
            (invKey pid toId)
            = some { toItem with quantity := toItem.quantity + quantity } :=
        set_find?_pos hti hkv2
      have hqto : qty s.inventory pid toId = toItem.quantity := by
        apply qty_eq_of_find?
        rw [← hfind1to]
        exact findIdxItem_find? hti
      refine ⟨?_, ?_, _, _, rfl, rfl, rfl, ?_, ?_, rfl, rfl, ?_, ?_⟩
      · rw [qty_eq_of_find? hfind2from, qty_eq_of_find? hfe]
      · rw [qty_eq_of_find? hfind2to, hqto]
      · exact hwn1.symm
      · rw [qty_eq_of_find? hfind2from]
      · exact hwn2.symm
      · rw [qty_eq_of_find? hfind2to]
  | none =>
      have hnone1 : (s.inventory.set fromIdx
          { fromItem with quantity := fromItem.quantity - quantity }).find?
            (invKey pid toId) = none :=
        findIdxItem_none_find? hti
      have hnone0 : s.inventory.find? (invKey pid toId) = none := by
        rw [← hfind1to]
        exact hnone1
      have happfrom :
          ((s.inventory.set fromIdx
              { fromItem with quantity := fromItem.quantity - quantity })
            ++ [(⟨pid, toId, quantity⟩ : InventoryItem)]).find? (invKey pid fromId)
            = some { fromItem with quantity := fromItem.quantity - quantity } := by
        rw [List.find?_append, hfind1from]
        rfl
      have happto :
          ((s.inventory.set fromIdx
              { fromItem with quantity := fromItem.quantity - quantity })
            ++ [(⟨pid, toId, quantity⟩ : InventoryItem)]).find? (invKey pid toId)
            = some (⟨pid, toId, quantity⟩ : InventoryItem) := by
        rw [List.find?_append, hnone1]
        simp [invKey]
      refine ⟨?_, ?_, _, _, rfl, rfl, rfl, ?_, ?_, rfl, rfl, ?_, ?_⟩
      · rw [qty_eq_of_find? happfrom, qty_eq_of_find? hfe]
      · rw [qty_eq_of_find? happto, qty_eq_zero_of_find? hnone0, zero_add]
      · exact hwn1.symm
      · rw [qty_eq_of_find? happfrom]
      · exact hwn2.symm
      · rw [qty_eq_of_find? happto]

/-- Witness for C2: transferring 5 units of `p1` from `w1` (25 units) to
`w2` (12 units) in the initial state. -/
theorem transfer_success_witness :
    qty (reducer wEnv initialState (Action.transferStock "p1" "w1" "w2" 5 "d")).inventory
        "p1" "w1" = qty initialState.inventory "p1" "w1" - 5 ∧
    qty (reducer wEnv initialState (Action.transferStock "p1" "w1" "w2" 5 "d")).inventory
        "p1" "w2" = qty initialState.inventory "p1" "w2" + 5 ∧
    ∃ l1 l2,
      (reducer wEnv initialState (Action.transferStock "p1" "w1" "w2" 5 "d")).logs
        = l1 :: l2 :: initialState.logs ∧
      l1.type = LogType.SALIDA ∧
      l1.quantityChange = -5 ∧
      l1.warehouseName = warehouseNameOf initialState "w1" ∧
      l1.newQuantityInWarehouse
        = qty (reducer wEnv initialState (Action.transferStock "p1" "w1" "w2" 5 "d")).inventory
            "p1" "w1" ∧
      l2.type = LogType.ENTRADA ∧
      l2.quantityChange = 5 ∧
      l2.warehouseName = warehouseNameOf initialState "w2" ∧
      l2.newQuantityInWarehouse
        = qty (reducer wEnv initialState (Action.transferStock "p1" "w1" "w2" 5 "d")).inventory
            "p1" "w2" :=
  transfer_success wEnv initialState "p1" "w1" "w2" 5 "d" (by decide) (by decide)
    (by decide) (by decide) (by decide) (by decide)

/-- Claim C6 (amended): the log entry appended by `ADJUST_STOCK` records the
requested `quantityChange`, and this equals the actual ledger change whenever
no clamping occurs, i.e. whenever the current quantity plus the change is
nonnegative (for an absent entry the current quantity is 0).  When clamping
occurs the log records the requested change, not the applied one. -/
theorem adjust_log_matches_ledger_when_unclamped (env : Env) (s : AppState)
    (pid wid : String) (change : Int) (ty : LogType) (details : String)
    (hp : hasProduct s pid = true)
    (hw : hasWarehouse s wid = true)
    (hnc : 0 ≤ qty s.inventory pid wid + change) :
    ∃ l,
      (reducer env s (Action.adjustStock pid wid change ty details)).logs = l :: s.logs ∧
      l.quantityChange = change ∧
      qty (reducer env s (Action.adjustStock pid wid change ty details)).inventory pid wid
        = qty s.inventory pid wid + change := by
  unfold hasProduct at hp
  unfold hasWarehouse at hw
  obtain ⟨product, hpe⟩ := Option.isSome_iff_exists.mp hp
  obtain ⟨warehouse, hwe⟩ := Option.isSome_iff_exists.mp hw
  simp only [reducer, hpe, hwe]
  cases hfi0 : findIdxItem (invKey pid wid) s.inventory with
  | some r1 =>
      obtain ⟨idx, item⟩ := r1
      have hfind : s.inventory.find? (invKey pid wid) = some item := findIdxItem_find? hfi0
      have hqb : qty s.inventory pid wid = item.quantity := qty_eq_of_find? hfind
      rw [hqb] at hnc
      have hmax : max 0 (item.quantity + change) = item.quantity + change := max_eq_right hnc
      have hkv : invKey pid wid { item with quantity := max 0 (item.quantity + change) } = true :=
        invKey_true_iff.mpr (invKey_true_iff.mp (findIdxItem_mem_and_pos hfi0).2)
      refine ⟨_, rfl, rfl, ?_⟩
      rw [qty_eq_of_find? (set_find?_pos hfi0 hkv), hqb]
      exact hmax
  | none =>
      have hfind : s.inventory.find? (invKey pid wid) = none := findIdxItem_none_find? hfi0
      have hqb : qty s.inventory pid wid = 0 := qty_eq_zero_of_find? hfind
      rw [hqb] at hnc
      rw [zero_add] at hnc
      have hmax : max 0 change = change := max_eq_right hnc
      by_cases hpos : (0 : Int) < max 0 change
      · simp only [if_pos hpos]
        refine ⟨_, rfl, rfl, ?_⟩
        have hknew : invKey pid wid (⟨pid, wid, max 0 change⟩ : InventoryItem) = true := by
          simp [invKey]
        have happ : (s.inventory ++ [(⟨pid, wid, max 0 change⟩ : InventoryItem)]).find?
            (invKey pid wid) = some (⟨pid, wid, max 0 change⟩ : InventoryItem) := by
          rw [List.find?_append, hfind]
          simp [hknew]
        rw [qty_eq_of_find? happ, hqb, zero_add]
        exact hmax
      · simp only [if_neg hpos]
        refine ⟨_, rfl, rfl, ?_⟩
        have hzero : change = 0 := by
          rw [hmax] at hpos
          omega
        rw [hqb, hzero, add_zero]

/-- Witness for the amended C6: the spec scenario `adjustStock(+30)` on an
entry holding 0 units (`p4` at `w2`). -/
theorem adjust_log_matches_ledger_when_unclamped_witness :
    ∃ l,
      (reducer wEnv initialState (Action.adjustStock "p4" "w2" 30 LogType.ENTRADA "d")).logs
        = l :: initialState.logs ∧
      l.quantityChange = 30 ∧
      qty (reducer wEnv initialState
            (Action.adjustStock "p4" "w2" 30 LogType.ENTRADA "d")).inventory "p4" "w2"
        = qty initialState.inventory "p4" "w2" + 30 :=
  adjust_log_matches_ledger_when_unclamped wEnv initialState "p4" "w2" 30 LogType.ENTRADA "d"
    (by decide) (by decide) (by decide)

/-- Counterexample to claim C6 as stated: adjusting `p2` at `w1` (8 units) by
−10 appends one log entry whose `quantityChange` is −10, while the actual
ledger change is −8 (the result is clamped at 0) — a log entry implying a
ledger change that did not happen. -/
theorem adjust_log_mismatch_cex :
    (reducer wEnv initialState (Action.adjustStock "p2" "w1" (-10) LogType.AJUSTE "d")).logs
      = ((reducer wEnv initialState
            (Action.adjustStock "p2" "w1" (-10) LogType.AJUSTE "d")).logs.headD dLog)
        :: initialState.logs ∧
    ((reducer wEnv initialState
        (Action.adjustStock "p2" "w1" (-10) LogType.AJUSTE "d")).logs.headD dLog).quantityChange
      = -10 ∧
    qty (reducer wEnv initialState
          (Action.adjustStock "p2" "w1" (-10) LogType.AJUSTE "d")).inventory "p2" "w1"
        - qty initialState.inventory "p2" "w1" = -8 := by decide

theorem bulkAddAux_transactionId_none (env : Env) (un : String) :
    ∀ (pds : List ProductData) (k : Nat),
      ∀ l ∈ (bulkAddAux env un k pds).2, l.transactionId = none := by
  intro pds
  induction pds with
  | nil => intro k l hl; simp [bulkAddAux] at hl
  | cons pd rest ih =>
      intro k l hl
      simp only [bulkAddAux] at hl
      rcases List.mem_cons.mp hl with h1 | h1
      · rw [h1]
      · exact ih (k + 2) l h1

/-- Claim C7 (amended): no log entry appended by any reducer case ever
carries a `transactionId` — the reducer never sets the optional field, so in
particular the two entries of a transfer are not tagged. -/
theorem reducer_never_sets_transactionId (env : Env) (s : AppState) (a : Action) :
    ∃ new, (reducer env s a).logs = new ++ s.logs ∧
      ∀ l ∈ new, l.transactionId = none := by
  cases a with
  | addWarehouse w => exact ⟨[], rfl, by simp⟩
  | updateProduct up => exact ⟨[], rfl, by simp⟩
  | deleteProduct pid => exact ⟨[], rfl, by simp⟩
  | addUser ud wids => exact ⟨[], rfl, by simp⟩
  | updateUser uu wids => exact ⟨[], rfl, by simp⟩
  | bulkTransferStock items fromId toId details => exact ⟨[], rfl, by simp⟩
  | updatePurchaseOrder poId status => exact ⟨[], rfl, by simp⟩
  | deleteUser uid =>
      refine ⟨[], ?_, by simp⟩
      simp only [reducer]
      split
      · rfl
      · rfl
  | addProduct pd =>
      refine ⟨[_], rfl, ?_⟩
      intro l hl
      rw [List.mem_singleton] at hl
      rw [hl]
  | bulkAddProducts pds =>
      refine ⟨(bulkAddAux env s.currentUser.name 0 pds).2, rfl, ?_⟩
      exact bulkAddAux_transactionId_none env s.currentUser.name pds 0
  | adjustStock pid wid change ty details =>
      simp only [reducer]
      split
      · refine ⟨[_], rfl, ?_⟩
        intro l hl
        rw [List.mem_singleton] at hl
        rw [hl]
      · exact ⟨[], rfl, by simp⟩
  | transferStock pid fromId toId quantity details =>
      simp only [reducer]
      split
      · split
        · exact ⟨[], rfl, by simp⟩
        · split
          · exact ⟨[], rfl, by simp⟩
          · split
            · exact ⟨[], rfl, by simp⟩
            · refine ⟨[_, _], rfl, ?_⟩
              intro l hl
              rcases List.mem_cons.mp hl with h1 | h1
              · rw [h1]
              · rw [List.mem_singleton] at h1
                rw [h1]
      · exact ⟨[], rfl, by simp⟩

/-- Counterexample to claim C7 as stated: the transfer of 5 units of `p1`
from `w1` to `w2` succeeds (both quantities move), appends exactly two log
entries, and neither carries a `transactionId`. -/
theorem transfer_no_transactionId_cex :
    (reducer wEnv initialState (Action.transferStock "p1" "w1" "w2" 5 "d")).logs
      = ((reducer wEnv initialState
            (Action.transferStock "p1" "w1" "w2" 5 "d")).logs.headD dLog)
        :: ((reducer wEnv initialState
              (Action.transferStock "p1" "w1" "w2" 5 "d")).logs.tail.headD dLog)
        :: initialState.logs ∧
    ((reducer wEnv initialState
        (Action.transferStock "p1" "w1" "w2" 5 "d")).logs.headD dLog).transactionId = none ∧
    ((reducer wEnv initialState
        (Action.transferStock "p1" "w1" "w2" 5 "d")).logs.tail.headD dLog).transactionId
      = none ∧
    qty (reducer wEnv initialState
          (Action.transferStock "p1" "w1" "w2" 5 "d")).inventory "p1" "w1" = 20 ∧
    qty (reducer wEnv initialState
          (Action.transferStock "p1" "w1" "w2" 5 "d")).inventory "p1" "w2" = 17 := by decide


/-- Claim C8 (amended): a same-warehouse `TRANSFER_STOCK` with an existing
product and warehouse, positive quantity, and sufficient stock is NOT
rejected: the inventory list comes back unchanged (the debit and credit hit
the same entry and cancel), but two log entries are still appended — a
SALIDA recording `sourceQty − quantity` and an ENTRADA recording
`sourceQty`. -/
theorem same_warehouse_transfer_not_rejected (env : Env) (s : AppState)
    (pid wid : String) (quantity : Int) (details : String)
    (hp : hasProduct s pid = true)
    (hw : hasWarehouse s wid = true)
    (hq : 0 < quantity)
    (hs : sourceHasAtLeast s.inventory pid wid quantity = true) :
    (reducer env s (Action.transferStock pid wid wid quantity details)).inventory
      = s.inventory ∧
    ∃ l1 l2,
      (reducer env s (Action.transferStock pid wid wid quantity details)).logs
        = l1 :: l2 :: s.logs ∧
      l1.type = LogType.SALIDA ∧
      l1.quantityChange = -quantity ∧
      l1.newQuantityInWarehouse = qty s.inventory pid wid - quantity ∧
      l2.type = LogType.ENTRADA ∧
      l2.quantityChange = quantity ∧
      l2.newQuantityInWarehouse = qty s.inventory pid wid := by
  unfold hasProduct at hp
  unfold hasWarehouse at hw
  obtain ⟨product, hpe⟩ := Option.isSome_iff_exists.mp hp
  obtain ⟨warehouse, hwe⟩ := Option.isSome_iff_exists.mp hw
  unfold sourceHasAtLeast at hs
  cases hfe : s.inventory.find? (invKey pid wid) with
  | none => rw [hfe] at hs; exact absurd hs (by simp)
  | some fromItem =>
  rw [hfe] at hs
  simp only [decide_eq_true_eq] at hs
  obtain ⟨fromIdx, hfi⟩ := find?_findIdxItem hfe
  have hqb : qty s.inventory pid wid = fromItem.quantity := qty_eq_of_find? hfe
  have hnle : ¬ quantity ≤ 0 := not_le.mpr hq
  have hnlt : ¬ fromItem.quantity < quantity := not_lt.mpr hs
  have hkv1 : invKey pid wid
      { fromItem with quantity := fromItem.quantity - quantity } = true :=
    invKey_true_iff.mpr (invKey_true_iff.mp (findIdxItem_mem_and_pos hfi).2)
  have hfi1 : findIdxItem (invKey pid wid)
      (s.inventory.set fromIdx { fromItem with quantity := fromItem.quantity - quantity })
      = some (fromIdx, { fromItem with quantity := fromItem.quantity - quantity }) :=
    set_findIdxItem_pos hfi hkv1
  have hcancel : fromItem.quantity - quantity + quantity = fromItem.quantity := by omega
  simp only [reducer, hpe, hwe, hfi, if_neg hnle, if_neg hnlt, hfi1]
  refine ⟨?_, _, _, rfl, rfl, rfl, by rw [hqb], rfl, rfl, ?_⟩
  · rw [List.set_set]
    have hv2 : ({ fromItem with quantity := fromItem.quantity - quantity + quantity }
        : InventoryItem) = fromItem := by
      rw [hcancel]
    rw [hv2]
    exact set_self_of_findIdxItem hfi
  · rw [hcancel, hqb]

/-- Witness for the amended C8: transferring 5 units of `p1` from `w1` to
`w1` itself in the initial state. -/
theorem same_warehouse_transfer_not_rejected_witness :
    (reducer wEnv initialState (Action.transferStock "p1" "w1" "w1" 5 "d")).inventory
      = initialState.inventory ∧
    ∃ l1 l2,
      (reducer wEnv initialState (Action.transferStock "p1" "w1" "w1" 5 "d")).logs
        = l1 :: l2 :: initialState.logs ∧
      l1.type = LogType.SALIDA ∧
      l1.quantityChange = -5 ∧
      l1.newQuantityInWarehouse = qty initialState.inventory "p1" "w1" - 5 ∧
      l2.type = LogType.ENTRADA ∧
      l2.quantityChange = 5 ∧
      l2.newQuantityInWarehouse = qty initialState.inventory "p1" "w1" :=
  same_warehouse_transfer_not_rejected wEnv initialState "p1" "w1" 5 "d"
    (by decide) (by decide) (by decide) (by decide)

/-- Counterexample to claim C8 as stated: a same-warehouse transfer of 5
units of `p1` at `w1` is not rejected before mutation — it appends two log
entries (the quantities nevertheless come back unchanged). -/
theorem same_warehouse_transfer_cex :
    (reducer wEnv initialState (Action.transferStock "p1" "w1" "w1" 5 "d")).logs.length
      = initialState.logs.length + 2 ∧
    (reducer wEnv initialState (Action.transferStock "p1" "w1" "w1" 5 "d")).inventory
      = initialState.inventory := by decide

/-- Claim C9 (amended): an `ADJUST_STOCK` with `quantityChange = 0` on an
existing product and warehouse is NOT rejected by the reducer: every ledger
quantity is left unchanged (given the reachable-state invariant that
quantities are nonnegative), but one log entry with `quantityChange = 0` is
still appended, recording the current quantity. -/
theorem zero_adjust_not_rejected (env : Env) (s : AppState)
    (pid wid : String) (ty : LogType) (details : String)
    (hp : hasProduct s pid = true)
    (hw : hasWarehouse s wid = true)
    (hnn : ∀ i ∈ s.inventory, 0 ≤ i.quantity) :
    (reducer env s (Action.adjustStock pid wid 0 ty details)).inventory = s.inventory ∧
    ∃ l,
      (reducer env s (Action.adjustStock pid wid 0 ty details)).logs = l :: s.logs ∧
      l.quantityChange = 0 ∧
      l.newQuantityInWarehouse = qty s.inventory pid wid := by
  unfold hasProduct at hp
  unfold hasWarehouse at hw
  obtain ⟨product, hpe⟩ := Option.isSome_iff_exists.mp hp
  obtain ⟨warehouse, hwe⟩ := Option.isSome_iff_exists.mp hw
  simp only [reducer, hpe, hwe]
  cases hfi0 : findIdxItem (invKey pid wid) s.inventory with
  | some r1 =>
      obtain ⟨idx, item⟩ := r1
      dsimp only
      have hfind : s.inventory.find? (invKey pid wid) = some item := findIdxItem_find? hfi0
      have hqe : max 0 (item.quantity + 0) = item.quantity := by
        rw [add_zero]
        exact max_eq_right (hnn item (findIdxItem_mem_and_pos hfi0).1)
      rw [hqe, qty_eq_of_find? hfind]
      exact ⟨set_self_of_findIdxItem hfi0, _, rfl, rfl, rfl⟩
  | none =>
      dsimp only
      have hfind : s.inventory.find? (invKey pid wid) = none := findIdxItem_none_find? hfi0
      have hzero : max 0 ((0 : Int)) = 0 := by decide
      have hniff : ¬ ((0 : Int) < max 0 (0 : Int)) := by decide
      rw [if_neg hniff, qty_eq_zero_of_find? hfind, hzero]
      exact ⟨rfl, _, rfl, rfl, rfl⟩

/-- Witness for the amended C9: a zero adjustment of `p1` at `w1` in the
initial state. -/
theorem zero_adjust_not_rejected_witness :
    (reducer wEnv initialState (Action.adjustStock "p1" "w1" 0 LogType.AJUSTE "d")).inventory
      = initialState.inventory ∧
    ∃ l,
      (reducer wEnv initialState (Action.adjustStock "p1" "w1" 0 LogType.AJUSTE "d")).logs
        = l :: initialState.logs ∧
      l.quantityChange = 0 ∧
      l.newQuantityInWarehouse = qty initialState.inventory "p1" "w1" :=
  zero_adjust_not_rejected wEnv initialState "p1" "w1" LogType.AJUSTE "d"
    (by decide) (by decide) (by decide)

/-- Counterexample to claim C9 as stated: a zero-quantity adjustment of `p1`
at `w1` is not rejected — the reducer appends one log entry (with
`quantityChange = 0`) instead of leaving the log unchanged. -/
theorem zero_adjust_cex :
    (reducer wEnv initialState (Action.adjustStock "p1" "w1" 0 LogType.AJUSTE "d")).logs.length
      = initialState.logs.length + 1 ∧
    ((reducer wEnv initialState
        (Action.adjustStock "p1" "w1" 0 LogType.AJUSTE "d")).logs.headD dLog).quantityChange
      = 0 := by decide

end Appinventario


